import Mathlib

/-!
Verification of the field-resolution and AI-response-reconciliation pipeline of
the form-filling browser extension (source file `src/popup.js`, class
`FormAnalyzer`).  The development shallowly embeds the pipeline:

* `jsonParse` / `stringify` model the JavaScript `JSON.parse` / `JSON.stringify`
  built-ins on a `Json` inductive (numbers are modelled exactly as rationals);
* `parseArrayFromText` embeds `FormAnalyzer.parseArrayFromText`
  (popup.js lines 1021-1127); the JavaScript exception channel of `JSON.parse`
  is made explicit as `Except`, and every `try/catch` of the source appears as
  a `match` on the corresponding `Except`/`Option` value;
* `computeStableKey` / `hashString` embed popup.js lines 968-997;
* `resolveFieldIndex` embeds popup.js lines 1316-1358;
* `processItem` / `runBatches` / `addMissingDefaults` / `analyzeWithFullHtml`
  embed the batched acceptance loop of popup.js lines 1166-1310 and 1363-1434;
* `sanitizeDateValue` embeds popup.js lines 1808-1857.

Machine arithmetic: the 32-bit rolling hash is modelled on `Nat` with explicit
reduction modulo 2^32; JavaScript numbers appearing as confidences are modelled
as rationals.  `charCodeAt` is modelled as `Char.toNat` (exact for the
basic multilingual plane, which covers every string the pipeline builds).
-/

namespace FormFiller

/-- JSON whitespace accepted by `JSON.parse` (space, tab, LF, CR). -/
def isJsonWs (c : Char) : Bool :=
  c = ' ' || c = '\t' || c = '\n' || c = '\r'

/-- Approximation of the JavaScript whitespace class used by
`String.prototype.trim` and the regex class `\s`. -/
def isJsWs (c : Char) : Bool :=
  c = ' ' || c = '\t' || c = '\n' || c = '\r' || c = '\x0b' || c = '\x0c' ||
  c = Char.ofNat 0xa0 || c = Char.ofNat 0xfeff

/-- Drop leading JSON whitespace. -/
def skipWsL (l : List Char) : List Char := l.dropWhile isJsonWs

/-- JavaScript `String.prototype.trim` on a character list. -/
def trimL (l : List Char) : List Char :=
  ((l.dropWhile isJsWs).reverse.dropWhile isJsWs).reverse

/-- JavaScript `String.prototype.trim`. -/
def jsTrim (s : String) : String := String.mk (trimL s.data)

/-- JavaScript `String.prototype.toLowerCase` (ASCII range, which is all the
pipeline's own strings use). -/
def toLowerL (l : List Char) : List Char := l.map Char.toLower

/-- Replace every run of whitespace by a single space, as the regex
replacement `replace(/\s+/g, ' ')` does.  The flag records whether the
previous character belonged to a whitespace run already replaced. -/
def collapseWsAux : Bool → List Char → List Char
  | _, [] => []
  | prevWs, c :: cs =>
    if isJsWs c then
      if prevWs then collapseWsAux true cs else ' ' :: collapseWsAux true cs
    else c :: collapseWsAux false cs

/-- `replace(/\s+/g, ' ')`. -/
def collapseWs (l : List Char) : List Char := collapseWsAux false l

/-- The normalisation `(v || '').toString().trim().toLowerCase()
.replace(/\s+/g, ' ')` used by `computeStableKey` (popup.js line 978) and by
`resolveFieldIndex` (line 1318). -/
def normStr (s : String) : String := String.mk (collapseWs (toLowerL (trimL s.data)))

/-- The lighter normalisation `(s || '').toString().trim().toLowerCase()` used
by the select-value validation (popup.js line 1169). -/
def normTL (s : String) : String := String.mk (toLowerL (trimL s.data))

/-- `norm` applied to a nullable string: `null` reads as `''`. -/
def normOpt (o : Option String) : String := normStr (o.getD "")

/-- Does `pat` occur at the head of `l`? -/
def seqAt (pat : List Char) (l : List Char) : Bool :=
  match pat, l with
  | [], _ => true
  | _ :: _, [] => false
  | p :: ps, c :: cs => p = c && seqAt ps cs

/-- First position at which `pat` occurs in `l`, starting the count at `i`. -/
def idxOfSeqAux (pat : List Char) : List Char → Nat → Option Nat
  | [], i => if seqAt pat [] then some i else none
  | l@(_ :: cs), i => if seqAt pat l then some i else idxOfSeqAux pat cs (i + 1)

/-- Does `pat` occur anywhere in `l`?  (JavaScript `indexOf(...) !== -1`.) -/
def containsSeq (pat l : List Char) : Bool := (idxOfSeqAux pat l 0).isSome

/-- Last position at which `pat` occurs in `l`
(JavaScript `lastIndexOf`). -/
def lastIdxOfSeq (pat l : List Char) : Option Nat :=
  ((List.range (l.length + 1)).filter (fun i => seqAt pat (l.drop i))).getLast?

/-- Case-insensitive substring test, modelling `/pat/i.test(s)` for a literal
pattern. -/
def containsInsens (s pat : String) : Bool :=
  containsSeq (toLowerL pat.data) (toLowerL s.data)

/-- Lower-case base-36 digit, as used by `Number.prototype.toString(36)`. -/
def digit36 (n : Nat) : Char :=
  if n < 10 then Char.ofNat (48 + n) else Char.ofNat (87 + n)

/-- Base-36 rendering of a natural number (fuelled division loop). -/
def toBase36Aux : Nat → Nat → List Char
  | 0, _ => []
  | fuel + 1, n =>
    if n < 36 then [digit36 n]
    else toBase36Aux fuel (n / 36) ++ [digit36 (n % 36)]

/-- JavaScript `n.toString(36)` for an unsigned 32-bit value. -/
def toBase36 (n : Nat) : String := String.mk (toBase36Aux (n + 1) n)

/-- One step of the rolling hash of popup.js lines 968-975: on the unsigned
32-bit representative, `h = ((h << 5) - h) + code; h |= 0` is exactly
`31 * h + code` modulo 2^32. -/
def hashStep (h : Nat) (c : Char) : Nat := (31 * h + c.toNat) % 4294967296

/-- `FormAnalyzer.hashString` (popup.js lines 968-975). -/
def hashString (s : String) : String := toBase36 (s.data.foldl hashStep 0)

/-- Lower-case hexadecimal digit. -/
def hexDigit (n : Nat) : Char :=
  if n < 10 then Char.ofNat (48 + n) else Char.ofNat (87 + n)

/-- `JSON.stringify` escaping of a single string character. -/
def escJsonChar (c : Char) : List Char :=
  if c = '"' then ['\\', '"']
  else if c = '\\' then ['\\', '\\']
  else if c = '\x08' then ['\\', 'b']
  else if c = '\t' then ['\\', 't']
  else if c = '\n' then ['\\', 'n']
  else if c = '\x0c' then ['\\', 'f']
  else if c = '\r' then ['\\', 'r']
  else if c.toNat < 32 then
    ['\\', 'u', '0', '0', hexDigit (c.toNat / 16), hexDigit (c.toNat % 16)]
  else [c]

/-- `JSON.stringify` of a string value. -/
def jsonQuote (s : String) : String :=
  String.mk ('"' :: (s.data.map escJsonChar).flatten ++ ['"'])

/-- JSON values, as produced by `JSON.parse`.  Numbers are modelled as exact
rationals. -/
inductive Json where
  | null : Json
  | bool (b : Bool) : Json
  | num (q : Rat) : Json
  | str (s : String) : Json
  | arr (elems : List Json) : Json
  | obj (members : List (String × Json)) : Json

/-- Value of a hexadecimal digit character. -/
def hexVal (c : Char) : Option Nat :=
  if 48 ≤ c.toNat && c.toNat ≤ 57 then some (c.toNat - 48)
  else if 97 ≤ c.toNat && c.toNat ≤ 102 then some (c.toNat - 87)
  else if 65 ≤ c.toNat && c.toNat ≤ 70 then some (c.toNat - 55)
  else none

/-- Decode one escape sequence after a backslash inside a JSON string literal.
Surrogate code points are rejected (they cannot be represented as a scalar
`Char`; no string this pipeline produces contains them). -/
def escResult : List Char → Option (Char × List Char)
  | [] => none
  | e :: cs =>
    if e = '"' then some ('"', cs)
    else if e = '\\' then some ('\\', cs)
    else if e = '/' then some ('/', cs)
    else if e = 'b' then some ('\x08', cs)
    else if e = 'f' then some ('\x0c', cs)
    else if e = 'n' then some ('\n', cs)
    else if e = 'r' then some ('\r', cs)
    else if e = 't' then some ('\t', cs)
    else if e = 'u' then
      match cs with
      | a :: b :: c :: d :: cs2 =>
        match hexVal a, hexVal b, hexVal c, hexVal d with
        | some ha, some hb, some hc, some hd =>
          let code := ((ha * 16 + hb) * 16 + hc) * 16 + hd
          if 0xd800 ≤ code && code < 0xe000 then none
          else some (Char.ofNat code, cs2)
        | _, _, _, _ => none
      | _ => none
    else none

/-- Parse the body of a JSON string literal (the opening quote already
consumed), returning the decoded characters and the remainder after the
closing quote.  Unescaped control characters are rejected, as `JSON.parse`
does. -/
def parseStringBody : Nat → List Char → Option (List Char × List Char)
  | 0, _ => none
  | _, [] => none
  | fuel + 1, c :: cs =>
    if c = '"' then some ([], cs)
    else if c = '\\' then
      match escResult cs with
      | some (ch, rest) =>
        match parseStringBody fuel rest with
        | some (out, rest2) => some (ch :: out, rest2)
        | none => none
      | none => none
    else if c.toNat < 32 then none
    else
      match parseStringBody fuel cs with
      | some (out, rest2) => some (c :: out, rest2)
      | none => none

/-- Numeric value of a list of decimal digits. -/
def digitsVal (l : List Char) : Nat :=
  l.foldl (fun a c => a * 10 + (c.toNat - 48)) 0

/-- Parse the optional fraction part `.digits` of a JSON number. -/
def parseFrac : List Char → Option (List Char × List Char)
  | '.' :: r =>
    let ds := r.takeWhile Char.isDigit
    if ds.isEmpty then none else some (ds, r.dropWhile Char.isDigit)
  | l => some ([], l)

/-- Parse the optional exponent part of a JSON number, returning the sign,
the exponent digits and the remainder. -/
def parseExp : List Char → Option (Bool × List Char × List Char)
  | [] => some (false, [], [])
  | c :: r =>
    if c = 'e' || c = 'E' then
      let signAndRest : Bool × List Char :=
        match r with
        | '+' :: rr => (false, rr)
        | '-' :: rr => (true, rr)
        | _ => (false, r)
      let ds := signAndRest.2.takeWhile Char.isDigit
      if ds.isEmpty then none
      else some (signAndRest.1, ds, signAndRest.2.dropWhile Char.isDigit)
    else some (false, [], c :: r)

/-- Parse a JSON number per the `JSON.parse` grammar (no leading `+`, no
leading zeros, mandatory digits around `.`). -/
def parseNumber (cs : List Char) : Option (Rat × List Char) :=
  let signAndRest : Bool × List Char :=
    match cs with
    | '-' :: rest => (true, rest)
    | _ => (false, cs)
  let cs1 := signAndRest.2
  let intDigits := cs1.takeWhile Char.isDigit
  let rest1 := cs1.dropWhile Char.isDigit
  if intDigits.isEmpty then none
  else if intDigits.length > 1 && intDigits.head? = some '0' then none
  else
    match parseFrac rest1 with
    | none => none
    | some (fracDigits, rest2) =>
      match parseExp rest2 with
      | none => none
      | some (negExp, expDigits, rest3) =>
        let base : Rat :=
          (digitsVal intDigits : Rat) +
            (digitsVal fracDigits : Rat) / ((10 : Rat) ^ fracDigits.length)
        let scaled : Rat :=
          if negExp then base / ((10 : Rat) ^ digitsVal expDigits)
          else base * ((10 : Rat) ^ digitsVal expDigits)
        some ((if signAndRest.1 then -scaled else scaled), rest3)

/-- Parse the comma-separated elements of a JSON array up to the closing
bracket, given a parser `pv` for a single value. -/
def parseElemsAux (pv : List Char → Option (Json × List Char)) :
    Nat → List Char → Option (List Json × List Char)
  | 0, _ => none
  | fuel + 1, cs =>
    match pv cs with
    | none => none
    | some (j, rest) =>
      match skipWsL rest with
      | ',' :: rest2 =>
        match parseElemsAux pv fuel rest2 with
        | some (js, r) => some (j :: js, r)
        | none => none
      | ']' :: rest2 => some ([j], rest2)
      | _ => none

/-- Parse the comma-separated members of a JSON object up to the closing
brace, given a parser `pv` for a single value. -/
def parseMembersAux (pv : List Char → Option (Json × List Char)) :
    Nat → List Char → Option (List (String × Json) × List Char)
  | 0, _ => none
  | fuel + 1, cs =>
    match skipWsL cs with
    | '"' :: rest =>
      match parseStringBody (rest.length + 1) rest with
      | none => none
      | some (keyChars, rest1) =>
        match skipWsL rest1 with
        | ':' :: rest2 =>
          match pv rest2 with
          | none => none
          | some (v, rest3) =>
            match skipWsL rest3 with
            | ',' :: rest4 =>
              match parseMembersAux pv fuel rest4 with
              | some (ms, r) => some ((String.mk keyChars, v) :: ms, r)
              | none => none
            | '\x7d' :: rest4 => some ([(String.mk keyChars, v)], rest4)
            | _ => none
        | _ => none
    | _ => none

/-- Parse one JSON value.  The fuel bounds the nesting depth; sibling
sequences are bounded by the fuels of the element/member loops. -/
def parseValue : Nat → List Char → Option (Json × List Char)
  | 0, _ => none
  | fuel + 1, cs =>
    match skipWsL cs with
    | [] => none
    | c :: rest =>
      if c = '"' then
        match parseStringBody (rest.length + 1) rest with
        | some (b, r) => some (Json.str (String.mk b), r)
        | none => none
      else if c = '\x7b' then
        match skipWsL rest with
        | '\x7d' :: r => some (Json.obj [], r)
        | _ =>
          match parseMembersAux (parseValue fuel) (rest.length + 1) rest with
          | some (ms, r) => some (Json.obj ms, r)
          | none => none
      else if c = '[' then
        match skipWsL rest with
        | ']' :: r => some (Json.arr [], r)
        | _ =>
          match parseElemsAux (parseValue fuel) (rest.length + 1) rest with
          | some (es, r) => some (Json.arr es, r)
          | none => none
      else if c = 't' then
        if seqAt ['r', 'u', 'e'] rest then some (Json.bool true, rest.drop 3) else none
      else if c = 'f' then
        if seqAt ['a', 'l', 's', 'e'] rest then some (Json.bool false, rest.drop 4) else none
      else if c = 'n' then
        if seqAt ['u', 'l', 'l'] rest then some (Json.null, rest.drop 3) else none
      else
        match parseNumber (c :: rest) with
        | some (q, r) => some (Json.num q, r)
        | none => none

/-- `JSON.parse` on a character list: one value, possibly surrounded by
whitespace, and nothing else. -/
def jsonParseL (cs : List Char) : Option Json :=
  match parseValue (cs.length + 1) cs with
  | some (j, rest) => if (skipWsL rest).isEmpty then some j else none
  | none => none

/-- `JSON.parse` on a string. -/
def jsonParse (s : String) : Option Json := jsonParseL s.data

/-- The JavaScript exception a failed `JSON.parse` raises. -/
inductive JsErr where
  | syntaxError
deriving DecidableEq

/-- `JSON.parse` with its exception channel made explicit: every use of it in
the source sits inside a `try`/`catch`, which the embedding renders as a
`match` on this `Except`. -/
def jsonParseE (s : String) : Except JsErr Json :=
  match jsonParse s with
  | some j => Except.ok j
  | none => Except.error JsErr.syntaxError

/-- JavaScript-style rendering of a JSON number.  `JSON.stringify` renders
doubles; this exact-rational rendering is an abstraction used only on the
dead-end fallback path `text = JSON.stringify(input)` of the parser. -/
def ratToJsString (q : Rat) : String :=
  if q.den = 1 then toString q.num else toString q

mutual

/-- `JSON.stringify` (library built-in), used by `parseArrayFromText` as a
fallback when an object input carries no chat-completion content. -/
def stringify : Json → String
  | Json.null => "null"
  | Json.bool true => "true"
  | Json.bool false => "false"
  | Json.num q => ratToJsString q
  | Json.str s => jsonQuote s
  | Json.arr xs => "[" ++ stringifyList xs ++ "]"
  | Json.obj ms => "\x7b" ++ stringifyMembers ms ++ "\x7d"

/-- Comma-separated rendering of array elements. -/
def stringifyList : List Json → String
  | [] => ""
  | [j] => stringify j
  | j :: js => stringify j ++ "," ++ stringifyList js

/-- Comma-separated rendering of object members. -/
def stringifyMembers : List (String × Json) → String
  | [] => ""
  | [(k, v)] => jsonQuote k ++ ":" ++ stringify v
  | (k, v) :: ms => jsonQuote k ++ ":" ++ stringify v ++ "," ++ stringifyMembers ms

end

/-- The JavaScript values `parseArrayFromText` can receive: a string, a
non-null object or array (carried as a `Json` value), or anything else
(numbers, booleans, `null`, `undefined` - the source returns `[]` for
these). -/
inductive JsVal where
  | str (s : String) : JsVal
  | objVal (j : Json) : JsVal
  | other : JsVal

/-- JavaScript truthiness of a JSON value. -/
def jsTruthy : Json → Bool
  | Json.null => false
  | Json.bool b => b
  | Json.num q => !(q = 0)
  | Json.str s => !(s = "")
  | Json.arr _ => true
  | Json.obj _ => true

/-- JavaScript property read `j[k]` on an object.  `JSON.parse` keeps the
last of duplicate keys, so the lookup searches from the end. -/
def jsGetField (j : Json) (k : String) : Option Json :=
  match j with
  | Json.obj ms => (ms.reverse.find? (fun m => m.1 == k)).map (fun m => m.2)
  | _ => none

/-- JavaScript `a[0]` on an array (`undefined` past the end). -/
def jsIndex0 : Json → Option Json
  | Json.arr es => es.head?
  | _ => none

/-- The `(ch && ch.delta && typeof ch.delta.content === 'string')` arm of the
content extraction (popup.js lines 1031-1033 and 1040-1042). -/
def contentOfDelta (chv : Json) : Option String :=
  match jsGetField chv "delta" with
  | some d =>
    if jsTruthy d then
      match jsGetField d "content" with
      | some (Json.str s) => some s
      | _ => none
    else none
  | none => none

/-- Extraction of `choices[0].message.content` (else `choices[0].delta
.content`) from a chat-completion envelope, as in popup.js lines 1030-1034
and 1039-1043.  `none` stands for the JavaScript result `null`. -/
def extractContent (j : Json) : Option String :=
  let ch : Option Json :=
    match jsGetField j "choices" with
    | some c => if jsTruthy c then jsIndex0 c else none
    | none => none
  match ch with
  | none => none
  | some chv =>
    match jsGetField chv "message" with
    | some m =>
      if jsTruthy m then
        match jsGetField m "content" with
        | some (Json.str s) => some s
        | _ => contentOfDelta chv
      else contentOfDelta chv
    | none => contentOfDelta chv

/-- The backtick character. -/
def fenceChar : Char := Char.ofNat 96

/-- A markdown code fence. -/
def fenceSeq : List Char := [fenceChar, fenceChar, fenceChar]

/-- `stripFences` of popup.js lines 1057-1066: trim; if the text starts with
a fence, drop through the first newline and cut at the last fence; trim
again. -/
def stripFencesL (l : List Char) : List Char :=
  let s := trimL l
  let s1 :=
    if seqAt fenceSeq s then
      let s2 :=
        match s.findIdx? (fun c => c == '\n') with
        | some i => s.drop (i + 1)
        | none => s
      match lastIdxOfSeq fenceSeq s2 with
      | some i => s2.take i
      | none => s2
    else s
  trimL s1

/-- State of the character scan of popup.js lines 1079-1124: string-literal
state with backslash escapes, brace depth, the object slice being collected
(`objStart !== -1`), and the objects parsed so far. -/
structure ScanSt where
  inString : Bool
  escape : Bool
  depth : Int
  collecting : Option (List Char)
  results : List Json

/-- Append a character to the object slice currently being collected, if
any.  In the source the slice is taken from the original text between
`objStart` and the closing brace; collecting the traversed characters is the
same slice. -/
def scanPush (st : ScanSt) (c : Char) : ScanSt :=
  match st.collecting with
  | some acc => { st with collecting := some (acc ++ [c]) }
  | none => st

/-- The extraction loop of popup.js lines 1085-1124: walk the text after the
opening bracket, track string-literal state and brace depth, and parse every
top-level-complete object, silently skipping any that fails to parse. -/
def scanObjects : List Char → ScanSt → List Json
  | [], st => st.results
  | c :: cs, st =>
    if st.inString then
      let st1 := scanPush st c
      if st.escape then scanObjects cs { st1 with escape := false }
      else if c = '\\' then scanObjects cs { st1 with escape := true }
      else if c = '"' then scanObjects cs { st1 with inString := false }
      else scanObjects cs st1
    else if c = '"' then scanObjects cs { scanPush st c with inString := true }
    else if c = '\x7b' then
      if st.depth = 0 then
        scanObjects cs { st with depth := st.depth + 1, collecting := some ['\x7b'] }
      else
        scanObjects cs { scanPush st c with depth := st.depth + 1 }
    else if c = '\x7d' then
      let d := st.depth - 1
      if d = 0 then
        match st.collecting with
        | some acc =>
          let newResults :=
            match jsonParseE (String.mk (acc ++ ['\x7d'])) with
            | Except.ok j => st.results ++ [j]
            | Except.error _ => st.results
          scanObjects cs { st with depth := d, collecting := none, results := newResults }
        | none => scanObjects cs { st with depth := d }
      else
        scanObjects cs { scanPush st c with depth := d }
    else
      scanObjects cs (scanPush st c)

/-- Step 1 of `parseArrayFromText` (popup.js lines 1022-1049): normalise the
input to the assistant's content string.  A string that looks like a full
chat-completion envelope is unwrapped (parse failure caught, keeping the
original); an object input yields its content or `JSON.stringify` of
itself. -/
def normalizeInputText (input : JsVal) : String :=
  match input with
  | JsVal.str s =>
    let trimmed := jsTrim s
    if seqAt ['\x7b'] trimmed.data && containsSeq ("\"choices\"".data) trimmed.data then
      match jsonParseE trimmed with
      | Except.ok obj =>
        match extractContent obj with
        | some content => content
        | none => s
      | Except.error _ => s
    else s
  | JsVal.objVal j =>
    match extractContent j with
    | some content => content
    | none => stringify j
  | JsVal.other => ""

/-- Step 2 of `parseArrayFromText` (popup.js line 1054): strip a leading
byte-order mark (`charCodeAt(0) === 0xFEFF`). -/
def stripBom (cs : List Char) : List Char :=
  match cs with
  | c :: rest => if c = Char.ofNat 0xfeff then rest else cs
  | [] => cs

/-- Steps 4-5 of `parseArrayFromText` (popup.js lines 1069-1126) on the
cleaned text: try a direct array parse (parse failure caught, non-array
results ignored); otherwise locate the outermost `[` and extract every
top-level-complete object after it. -/
def parseScanPhase (cs : List Char) : Except JsErr (List Json) :=
  match jsonParseE (String.mk cs) with
  | Except.ok (Json.arr es) => Except.ok es
  | _ =>
    match cs.findIdx? (fun c => c == '[') with
    | none => Except.ok []
    | some start =>
      Except.ok (scanObjects (cs.drop (start + 1)) (ScanSt.mk false false 0 none []))

/-- `FormAnalyzer.parseArrayFromText` (popup.js lines 1021-1127).  The result
type records the JavaScript exception channel; every `JSON.parse` the source
performs is wrapped in a `try/catch`, rendered here as a `match` on
`jsonParseE`, so every exit of the function is a normal return. -/
def parseArrayFromText (input : JsVal) : Except JsErr (List Json) :=
  match input with
  | JsVal.other => Except.ok []
  | _ =>
    if normalizeInputText input = "" then Except.ok []
    else parseScanPhase (stripFencesL (stripBom (normalizeInputText input).data))

/-- A field descriptor record as built by `createFieldsJson` (popup.js lines
836-862).  `index` is the position in the collection pass; `stableKey` is the
value stored by `rec.stableKey = this.computeStableKey(rec)`.  The
`attributes` map is carried for completeness; no claim-relevant code reads
it.  The four `form*` identity fields are nullable (`field.formId || null`).
Geometry (the bounding rectangle) lives on the collected element, not on this
record. -/
structure FieldJson where
  index : Nat
  type : String
  label : String
  name : String
  id : String
  placeholder : String
  required : Bool
  className : String
  formId : Option String
  formName : Option String
  formAction : Option String
  formMethod : Option String
  formIndex : Int
  orderWithinForm : Int
  tagName : String
  attributes : List (String × String)
  parentLabels : List String
  nearbyText : List String
  cssPath : String
  stableKey : String
deriving DecidableEq

/-- Join with `'|'`, as `(fj.parentLabels || []).map(norm).join('|')`. -/
def joinBar (l : List String) : String := String.intercalate "|" l

/-- The `JSON.stringify` payload of `computeStableKey` (popup.js lines
979-995): fixed key order, each string field normalised, the two numeric
fields rendered as JavaScript integers.  Both `formIndex` and
`orderWithinForm` are numbers on every record `createFieldsJson` builds, so
the `typeof` guards collapse to the identity. -/
def stableKeyPayload (fj : FieldJson) : String :=
  "\x7b\"t\":" ++ jsonQuote (normStr fj.type) ++
  ",\"tg\":" ++ jsonQuote (normStr fj.tagName) ++
  ",\"id\":" ++ jsonQuote (normStr fj.id) ++
  ",\"nm\":" ++ jsonQuote (normStr fj.name) ++
  ",\"lb\":" ++ jsonQuote (normStr fj.label) ++
  ",\"ph\":" ++ jsonQuote (normStr fj.placeholder) ++
  ",\"fid\":" ++ jsonQuote (normOpt fj.formId) ++
  ",\"fn\":" ++ jsonQuote (normOpt fj.formName) ++
  ",\"fa\":" ++ jsonQuote (normOpt fj.formAction) ++
  ",\"fm\":" ++ jsonQuote (normOpt fj.formMethod) ++
  ",\"fi\":" ++ toString fj.formIndex ++
  ",\"of\":" ++ toString fj.orderWithinForm ++
  ",\"pL\":" ++ jsonQuote (joinBar (fj.parentLabels.map normStr)) ++
  ",\"nT\":" ++ jsonQuote (joinBar (fj.nearbyText.map normStr)) ++
  ",\"cp\":" ++ jsonQuote (normStr fj.cssPath) ++ "\x7d"

/-- `FormAnalyzer.computeStableKey` (popup.js lines 977-997). -/
def computeStableKey (fj : FieldJson) : String :=
  "k_" ++ hashString (stableKeyPayload fj)

/-- A suggestion object as the acceptance loop reads it.  Fields the model
omitted are `none`; string fields carry the string value (the source reads
them duck-typed off the parsed JSON).  `confidence` is the value of
`Number(item.confidence)`, with `none` standing for an absent or non-numeric
confidence (`NaN`). -/
structure SuggestionItem where
  key : Option String
  cssPath : Option String
  id : Option String
  name : Option String
  label : Option String
  formIndex : Option Int
  orderWithinForm : Option Int
  index : Option Int
  value : Option String
  confidence : Option Rat
  reason : Option String
deriving DecidableEq

/-- JavaScript truthiness of a nullable string (`''` is falsy). -/
def truthyOS (o : Option String) : Bool :=
  match o with
  | some s => s != ""
  | none => false

/-- The `fieldKeyToIndex` map of popup.js line 1138:
`new Map(fieldsJson.map((f, i) => [f.stableKey, i]))`.  A JavaScript `Map`
overwrites duplicate keys, so the last index with a given key wins. -/
def fieldKeyToIndex (fieldsJson : List FieldJson) (k : String) : Option Nat :=
  ((fieldsJson.enum.filter (fun p => p.2.stableKey == k)).getLast?).map (fun p => p.1)

/-- The `cssPathToIndex` map of popup.js lines 1139-1144: only non-empty
paths are inserted and only the first occurrence is kept. -/
def cssPathToIndex (fieldsJson : List FieldJson) (p : String) : Option Nat :=
  ((fieldsJson.enum.filter (fun q => (q.2.cssPath != "") && (q.2.cssPath == p))).head?).map
    (fun q => q.1)

/-- Resolution strategy 1: `item.key && this.fieldKeyToIndex.has(item.key)`
(popup.js lines 1321-1323). -/
def keyMatch (item : SuggestionItem) (fieldsJson : List FieldJson) : Option Nat :=
  if truthyOS item.key then fieldKeyToIndex fieldsJson (item.key.getD "") else none

/-- Resolution strategy 2: `item.cssPath && this.cssPathToIndex.has(...)`
(popup.js lines 1326-1328). -/
def cssMatch (item : SuggestionItem) (fieldsJson : List FieldJson) : Option Nat :=
  if truthyOS item.cssPath then cssPathToIndex fieldsJson (item.cssPath.getD "") else none

/-- Resolution strategy 3: first field whose normalised `id` equals the
suggestion's normalised `id` (popup.js lines 1331-1334). -/
def idMatch (item : SuggestionItem) (fieldsJson : List FieldJson) : Option Nat :=
  if truthyOS item.id then
    fieldsJson.findIdx? (fun f => normStr f.id == normStr (item.id.getD ""))
  else none

/-- Resolution strategy 4: normalised `name` (popup.js lines 1337-1340). -/
def nameMatch (item : SuggestionItem) (fieldsJson : List FieldJson) : Option Nat :=
  if truthyOS item.name then
    fieldsJson.findIdx? (fun f => normStr f.name == normStr (item.name.getD ""))
  else none

/-- Resolution strategy 5: normalised `label` (popup.js lines 1343-1346). -/
def labelMatch (item : SuggestionItem) (fieldsJson : List FieldJson) : Option Nat :=
  if truthyOS item.label then
    fieldsJson.findIdx? (fun f => normStr f.label == normStr (item.label.getD ""))
  else none

/-- Resolution strategy 6: exact `(formIndex, orderWithinForm)` pair, both
present as numbers (popup.js lines 1349-1352). -/
def formPosMatch (item : SuggestionItem) (fieldsJson : List FieldJson) : Option Nat :=
  match item.formIndex, item.orderWithinForm with
  | some a, some b =>
    fieldsJson.findIdx? (fun f => (f.formIndex == a) && (f.orderWithinForm == b))
  | _, _ => none

/-- Resolution strategy 7: the raw numeric index, only if in range
(popup.js lines 1317 and 1355). -/
def indexMatch (item : SuggestionItem) (fieldsJson : List FieldJson) : Option Nat :=
  match item.index with
  | some n => if 0 ≤ n && n < (fieldsJson.length : Int) then some n.toNat else none
  | none => none

/-- `FormAnalyzer.resolveFieldIndex` (popup.js lines 1316-1358): the seven
strategies in order, first match wins, `-1` when none applies. -/
def resolveFieldIndex (item : SuggestionItem) (fieldsJson : List FieldJson) : Int :=
  match keyMatch item fieldsJson with
  | some i => (i : Int)
  | none =>
    match cssMatch item fieldsJson with
    | some i => (i : Int)
    | none =>
      match idMatch item fieldsJson with
      | some i => (i : Int)
      | none =>
        match nameMatch item fieldsJson with
        | some i => (i : Int)
        | none =>
          match labelMatch item fieldsJson with
          | some i => (i : Int)
          | none =>
            match formPosMatch item fieldsJson with
            | some i => (i : Int)
            | none =>
              match indexMatch item fieldsJson with
              | some i => (i : Int)
              | none => -1

/-- A page element as the acceptance loop reads it.  `eid` models JavaScript
reference identity (`===`); the collector deduplicates via a `Set` of
elements, so distinct entries have distinct `eid`s.  `typeAttr` is
`element.type`, `options` the `(value, text)` pairs of a `SELECT`. -/
structure PageElement where
  eid : Nat
  tagName : String
  typeAttr : String
  name : String
  id : String
  options : List (String × String)
deriving DecidableEq

/-- An entry of the `elements` array built by `collectAllFormElements`
(popup.js lines 744-831), restricted to what the acceptance loop reads. -/
structure CollectedField where
  element : PageElement
  ftype : String
deriving DecidableEq

/-- An entry of `this.identifiedFields` as pushed by the acceptance loop
(popup.js lines 1288-1294) and the default backfill. -/
structure IdentifiedField where
  element : PageElement
  suggestedValue : String
  confidence : Rat
  reason : String
  included : Bool
deriving DecidableEq

/-- The mutable run state of `analyzeWithFullHtml`: the `usedIndices` and
`usedKeys` sets (popup.js lines 1167-1168; `usedKeys` is written but never
read) and `this.identifiedFields`. -/
structure RunState where
  usedIndices : List Nat
  usedKeys : List String
  identifiedFields : List IdentifiedField
deriving DecidableEq

/-- The state at the start of a run: `processFormFilling` clears
`identifiedFields` before analysing. -/
def initRunState : RunState := RunState.mk [] [] []

/-- JavaScript reference equality of elements. -/
def elemRefEq (a b : PageElement) : Bool := a.eid == b.eid

/-- `Math.min` on non-NaN numbers. -/
def jsMin (a b : Rat) : Rat := if a ≤ b then a else b

/-- `Math.max` on non-NaN numbers. -/
def jsMax (a b : Rat) : Rat := if a ≤ b then b else a

/-- `Math.max(0, Math.min(1, Number(item.confidence) || 0.8))` (popup.js
line 1291): an absent or non-numeric confidence (`Number` gives `NaN`) and a
zero confidence are both falsy and replaced by `0.8` before clamping. -/
def coerceConfidence (c : Option Rat) : Rat :=
  let n : Rat :=
    match c with
    | some q => if q = 0 then Rat.divInt 4 5 else q
    | none => Rat.divInt 4 5
  jsMax 0 (jsMin 1 n)

/-- The `SELECT` validation of popup.js lines 1248-1283: accept the value if
it matches an option value or text (trim/lower-case insensitive), otherwise
fall back to named defaults for `source`, `work_authorization` and
`position`, otherwise reject.  Returns the (possibly reassigned)
`item.value`, or `none` when the suggestion is to be skipped. -/
def selectValidatedValue (e : PageElement) (rawValue : String) : Option String :=
  let value := jsTrim rawValue
  let hasOption :=
    e.options.any (fun o => (normTL o.1 == normTL value) || (normTL o.2 == normTL value))
  if hasOption then some rawValue
  else if (e.name == "source") || (e.id == "source") then
    match e.options.find? (fun o => (o.1 == "search_engine") || (o.1 == "other")) with
    | some o => some o.1
    | none => none
  else if (e.name == "work_authorization") || (e.id == "work_authorization") then
    match e.options.find? (fun o => normTL o.1 == "yes") with
    | some o => some o.1
    | none => none
  else if (e.name == "position") || (e.id == "position") then
    match e.options.find? (fun o => normTL o.1 == "software_engineer") with
    | some o => some o.1
    | none =>
      match e.options.find? (fun o => o.1 != "") with
      | some o => some o.1
      | none => none
  else none

/-- `if (item.key) usedKeys.add(item.key)` (popup.js line 1286). -/
def pushKeys (item : SuggestionItem) (ks : List String) : List String :=
  match item.key with
  | some k => if k != "" then k :: ks else ks
  | none => ks

/-- One iteration of the acceptance loop body (popup.js lines 1238-1294):
resolve, discard unresolved / already-claimed / empty-valued suggestions,
validate `SELECT` values, then record the accepted suggestion.  (The
`item == null` guard of the source is unrepresentable here: items are
records.) -/
def processItem (elements : List CollectedField) (fieldsJson : List FieldJson)
    (st : RunState) (item : SuggestionItem) : RunState :=
  let r := resolveFieldIndex item fieldsJson
  if r = -1 then st
  else
    let resolvedIdx := r.toNat
    if resolvedIdx ∈ st.usedIndices then st
    else
      match item.value with
      | none => st
      | some v =>
        if jsTrim v = "" then st
        else
          match elements[resolvedIdx]? with
          | none => st
          | some field =>
            let validated : Option String :=
              if field.element.tagName == "SELECT" then
                selectValidatedValue field.element v
              else some v
            match validated with
            | none => st
            | some fv =>
              RunState.mk (resolvedIdx :: st.usedIndices)
                (pushKeys item st.usedKeys)
                (st.identifiedFields ++
                  [IdentifiedField.mk field.element (jsTrim fv)
                    (coerceConfidence item.confidence) (item.reason.getD "") true])

/-- `parsed.forEach(item => ...)` over one batch's parsed suggestions. -/
def processBatch (elements : List CollectedField) (fieldsJson : List FieldJson)
    (st : RunState) (items : List SuggestionItem) : RunState :=
  items.foldl (processItem elements fieldsJson) st

/-- Outcome of one batch's prompt round-trip: user cancellation (the
cancellation flag, or the bridge rejecting with `Cancelled by user`) or any
other failure. -/
inductive PromptErr where
  | cancelled : PromptErr
  | failure : PromptErr
deriving DecidableEq

/-- The batch loop of popup.js lines 1171-1302: each batch is awaited in a
`try/catch`; a cancellation error is rethrown and ends the run, any other
error is logged and the loop continues with the next batch. -/
def runBatches (elements : List CollectedField) (fieldsJson : List FieldJson) :
    RunState → List (Except PromptErr (List SuggestionItem)) → Except String RunState
  | st, [] => Except.ok st
  | _, Except.error PromptErr.cancelled :: _ => Except.error "Cancelled by user"
  | st, Except.error PromptErr.failure :: rest => runBatches elements fieldsJson st rest
  | st, Except.ok items :: rest =>
    runBatches elements fieldsJson (processBatch elements fieldsJson st items) rest

/-- `hasIdx` of popup.js line 1364: is some identified field's element the
element at index `i`?  (When `i` is out of range the source would throw;
`createFieldsJson` keeps `elements` and `fieldsJson` aligned, so the branch
is unreachable and modelled as `false`.) -/
def hasIdxB (elements : List CollectedField) (st : RunState) (i : Nat) : Bool :=
  match elements[i]? with
  | some c => st.identifiedFields.any (fun ff => elemRefEq ff.element c.element)
  | none => false

/-- Common shape of the four backfill blocks of `addMissingDefaults`
(popup.js lines 1363-1434): given the index found for the block's predicate,
push a default suggestion unless the field's element is already identified
or the block finds no usable value. -/
def tryPushDefault (elements : List CollectedField) (st : RunState) (idx? : Option Nat)
    (mk : CollectedField → Option (String × Rat × String)) : RunState :=
  match idx? with
  | none => st
  | some idx =>
    if hasIdxB elements st idx then st
    else
      match elements[idx]? with
      | none => st
      | some c =>
        match mk c with
        | none => st
        | some (v, conf, reason) =>
          RunState.mk (idx :: st.usedIndices) st.usedKeys
            (st.identifiedFields ++ [IdentifiedField.mk c.element v conf reason true])

/-- Predicate of the `source` backfill block (popup.js line 1369). -/
def sourcePred (elements : List CollectedField) (f : FieldJson) : Bool :=
  ((f.name == "source") || (f.id == "source") || containsInsens f.label "how did you hear") &&
  (match elements[f.index]? with
   | some c => c.element.tagName == "SELECT"
   | none => false)

/-- Predicate of the `specify` backfill block (popup.js line 1387). -/
def specifyPred (elements : List CollectedField) (f : FieldJson) : Bool :=
  ((f.name == "specify") || (f.id == "specify") || containsInsens f.label "specify") &&
  ((match elements[f.index]? with
    | some c => String.mk (toLowerL c.element.tagName.data)
    | none => "") == "input")

/-- Predicate of the `work_authorization` backfill block (popup.js line
1400). -/
def workAuthPred (elements : List CollectedField) (f : FieldJson) : Bool :=
  ((f.name == "work_authorization") || (f.id == "work_authorization")) &&
  (match elements[f.index]? with
   | some c => c.element.tagName == "SELECT"
   | none => false)

/-- Predicate of the `position` backfill block (popup.js line 1418). -/
def positionPred (elements : List CollectedField) (f : FieldJson) : Bool :=
  ((f.name == "position") || (f.id == "position")) &&
  (match elements[f.index]? with
   | some c => c.element.tagName == "SELECT"
   | none => false)

/-- Option chosen by the `source` block: `search_engine`, else `other`, else
the first option with a non-empty value (popup.js line 1373). -/
def preferredSourceOption (options : List (String × String)) : Option (String × String) :=
  match options.find? (fun o => o.1 == "search_engine") with
  | some o => some o
  | none =>
    match options.find? (fun o => o.1 == "other") with
    | some o => some o
    | none => options.find? (fun o => o.1 != "")

/-- Option chosen by the `work_authorization` block: first option whose value
or text matches `/yes/i`, else the first option (popup.js line 1404). -/
def preferredYesOption (options : List (String × String)) : Option (String × String) :=
  match options.find? (fun o => containsInsens o.1 "yes" || containsInsens o.2 "yes") with
  | some o => some o
  | none => options.head?

/-- Option chosen by the `position` block among options with non-empty
values: `software_engineer`, else the first such option (popup.js lines
1421-1422). -/
def preferredPositionOption (options : List (String × String)) : Option (String × String) :=
  let filtered := options.filter (fun o => o.1 != "")
  match filtered.find? (fun o => o.1 == "software_engineer") with
  | some o => some o
  | none => filtered.head?

/-- `FormAnalyzer.addMissingDefaults` (popup.js lines 1363-1434): the four
backfill blocks in source order. -/
def addMissingDefaults (elements : List CollectedField) (fieldsJson : List FieldJson)
    (st : RunState) : RunState :=
  let st1 := tryPushDefault elements st (fieldsJson.findIdx? (sourcePred elements))
    (fun c =>
      match preferredSourceOption c.element.options with
      | some o => some (o.1, Rat.divInt 3 5, "default: required select")
      | none => none)
  let st2 := tryPushDefault elements st1 (fieldsJson.findIdx? (specifyPred elements))
    (fun _ => some ("N/A", Rat.divInt 1 2, "default: unspecified"))
  let st3 := tryPushDefault elements st2 (fieldsJson.findIdx? (workAuthPred elements))
    (fun c =>
      match preferredYesOption c.element.options with
      | some o => some (o.1, Rat.divInt 3 5, "default: assume authorized")
      | none => none)
  tryPushDefault elements st3 (fieldsJson.findIdx? (positionPred elements))
    (fun c =>
      match preferredPositionOption c.element.options with
      | some o => some (o.1, Rat.divInt 11 20, "default: common position")
      | none => none)

/-- `FormAnalyzer.analyzeWithFullHtml` after batching (popup.js lines
1171-1310): run the batches from the cleared state, backfill defaults, and
throw `AI returned no valid data` if nothing was accepted.  The per-batch
prompt outcomes are the external input of the run. -/
def analyzeWithFullHtml (elements : List CollectedField) (fieldsJson : List FieldJson)
    (outcomes : List (Except PromptErr (List SuggestionItem))) :
    Except String (List IdentifiedField) :=
  match runBatches elements fieldsJson initRunState outcomes with
  | Except.error e => Except.error e
  | Except.ok st =>
    if (addMissingDefaults elements fieldsJson st).identifiedFields.isEmpty then
      Except.error "AI returned no valid data"
    else Except.ok (addMissingDefaults elements fieldsJson st).identifiedFields

/-- The error handler of `processFormFilling` (popup.js lines 706-712): a
`Cancelled by user` error is only logged; any other error is surfaced with
`alert('AI processing failed: ' + e.message)`.  The result is the alert text
shown to the user, if any. -/
def processFormFillingAlert (result : Except String (List IdentifiedField)) : Option String :=
  match result with
  | Except.ok _ => none
  | Except.error m =>
    if m = "Cancelled by user" then none else some ("AI processing failed: " ++ m)

/-- The regex `/^\d\x7b4\x7d-\d\x7b2\x7d-\d\x7b2\x7d$/` of popup.js
line 1812: exactly `YYYY-MM-DD` shaped. -/
def isIsoShape (s : String) : Bool :=
  match s.data with
  | [a, b, c, d, e, f, g, h, i, j] =>
    a.isDigit && b.isDigit && c.isDigit && d.isDigit && e = '-' &&
    f.isDigit && g.isDigit && h = '-' && i.isDigit && j.isDigit
  | _ => false

/-- The regex `/^(present|current|now|today)$/i` of popup.js line 1820. -/
def isPresentWord (s : String) : Bool :=
  let l := toLowerL s.data
  l = "present".data || l = "current".data || l = "now".data || l = "today".data

/-- The regex `/^\d\x7b4\x7d$/` of popup.js line 1826. -/
def isFourDigits (l : List Char) : Bool :=
  match l with
  | [a, b, c, d] => a.isDigit && b.isDigit && c.isDigit && d.isDigit
  | _ => false

/-- The match of `/^(\d\x7b4\x7d)[-\s]*(present|current|now|today)?/i`
(popup.js line 1831).  The separator and the word are both optional, so the
regex matches exactly when the string starts with four digits, and only the
first capture group is used. -/
def yearPre (l : List Char) : Option (List Char) :=
  match l with
  | a :: b :: c :: d :: _ =>
    if a.isDigit && b.isDigit && c.isDigit && d.isDigit then some [a, b, c, d] else none
  | _ => none

/-- A separator of the slash-date regex: `[\/\-]`. -/
def sepSD (c : Char) : Bool := c = '/' || c = '-'

/-- The match of `/^(\d\x7b1,2\x7d)[\/\-](\d\x7b1,2\x7d)[\/\-](\d\x7b4\x7d)$/`
(popup.js line 1837), returning the three capture groups.  The greedy
bounded repetitions admit no backtracking here: each digit group must be the
full maximal digit run at its position. -/
def slashDate (l : List Char) : Option (List Char × List Char × List Char) :=
  let d1 := l.takeWhile Char.isDigit
  let r1 := l.dropWhile Char.isDigit
  if d1.length = 0 || d1.length > 2 then none
  else
    match r1 with
    | s1 :: r2 =>
      if sepSD s1 then
        let d2 := r2.takeWhile Char.isDigit
        let r3 := r2.dropWhile Char.isDigit
        if d2.length = 0 || d2.length > 2 then none
        else
          match r3 with
          | s2 :: r4 =>
            if sepSD s2 then
              let d3 := r4.takeWhile Char.isDigit
              let r5 := r4.dropWhile Char.isDigit
              if d3.length = 4 && r5.isEmpty then some (d1, d2, d3) else none
            else none
          | [] => none
      else none
    | [] => none

/-- `String.prototype.padStart(2, '0')`. -/
def pad2 (l : List Char) : List Char :=
  if l.length ≥ 2 then l else List.replicate (2 - l.length) '0' ++ l

/-- `FormAnalyzer.sanitizeDateValue` (popup.js lines 1808-1857).
`today` is the date part of `new Date().toISOString()`; `genericParse`
models the engine-specific `new Date(dateStr)` fallback of lines 1847-1854
(`none` when the constructor yields an invalid date).  Neither parameter is
consulted by the claim-relevant inputs, whose branches come first. -/
def sanitizeDateValue (genericParse : String → Option String) (today : String)
    (value : String) : Option String :=
  if value = "" then none
  else if isIsoShape value then some value
  else
    let dateStr := jsTrim value
    let dl := dateStr.data
    if isPresentWord dateStr then some today
    else if isFourDigits dl then some (dateStr ++ "-01-01")
    else
      match yearPre dl with
      | some y => some (String.mk y ++ "-01-01")
      | none =>
        match slashDate dl with
        | some (m, d, y) =>
          some (String.mk y ++ "-" ++ String.mk (pad2 m) ++ "-" ++ String.mk (pad2 d))
        | none => genericParse dateStr

/-- An entry of `fieldsWithOptions` (popup.js lines 1147-1163): the
descriptor, the `SELECT` options when the element is a select, and the
`isFile` flag that excludes the field from every prompt. -/
structure FieldWithOptions where
  fj : FieldJson
  options : Option (List (String × String))
  isFile : Bool
deriving DecidableEq

/-- The `isFile` computation of popup.js line 1157. -/
def computeIsFile (elem? : Option PageElement) (ftype : String) : Bool :=
  (match elem? with
   | some e =>
     (e.tagName == "INPUT") && (e.typeAttr != "") &&
       (String.mk (toLowerL e.typeAttr.data) == "file")
   | none => false) || (ftype == "file")

/-- `fieldsWithOptions` (popup.js lines 1147-1163). -/
def buildFieldsWithOptions (elements : List CollectedField) (fieldsJson : List FieldJson) :
    List FieldWithOptions :=
  fieldsJson.enum.map (fun p =>
    let elem? := (elements[p.1]?).map (fun c => c.element)
    let opts :=
      match elem? with
      | some e => if e.tagName == "SELECT" then some e.options else none
      | none => none
    FieldWithOptions.mk p.2 opts (computeIsFile elem? p.2.type))

/-- The slices `fieldsWithOptions.slice(start, start + 24)` of the batch
loop (popup.js line 1171-1173), fuelled by the list length. -/
def sliceChunksAux : Nat → List FieldWithOptions → List (List FieldWithOptions)
  | 0, _ => []
  | _, [] => []
  | fuel + 1, l => l.take 24 :: sliceChunksAux fuel (l.drop 24)

/-- The consecutive batches of at most 24 descriptors. -/
def sliceChunks (l : List FieldWithOptions) : List (List FieldWithOptions) :=
  sliceChunksAux l.length l

/-- The batches actually sent to the model: each slice with its file fields
filtered out (popup.js lines 1173-1175). -/
def sentBatches (elements : List CollectedField) (fieldsJson : List FieldJson) :
    List (List FieldWithOptions) :=
  (sliceChunks (buildFieldsWithOptions elements fieldsJson)).map
    (fun c => c.filter (fun f => !f.isFile))

/-- An identified field traceable to a claimed index: some claimed index `i`
holds a collected element with the record's element identity. -/
def goodEntry (elements : List CollectedField) (used : List Nat) (r : IdentifiedField) : Prop :=
  ∃ i c, i ∈ used ∧ elements[i]? = some c ∧ r.element.eid = c.element.eid

/-- Invariant of the acceptance loop: identified-field element identities are
pairwise distinct and every identified field is traceable to a claimed
index. -/
def stInv (elements : List CollectedField) (st : RunState) : Prop :=
  (st.identifiedFields.map (fun r => r.element.eid)).Nodup ∧
  ∀ r ∈ st.identifiedFields, goodEntry elements st.usedIndices r

/-- The record shape every accepted suggestion is stored with. -/
def confOk (r : IdentifiedField) : Prop :=
  r.included = true ∧ 0 ≤ r.confidence ∧ r.confidence ≤ 1

/-- Sample descriptor used by the witnesses: the first field of a two-field
collection pass. -/
def sampleFieldA : FieldJson :=
  FieldJson.mk 0 "firstName" "First name" "first_name" "fn" "" true "form-control"
    (some "apply") none (some "https://example.com/apply") (some "post") 0 0 "INPUT" []
    ["Your details"] ["First name"] "#fn" "k_a"

/-- Sample descriptor: the second field of the pass. -/
def sampleFieldB : FieldJson :=
  FieldJson.mk 1 "lastName" "Last name" "last_name" "ln" "" true "form-control"
    (some "apply") none (some "https://example.com/apply") (some "post") 0 1 "INPUT" []
    ["Your details"] ["Last name"] "#ln" "k_b"

/-- `sampleFieldA` as re-collected in a later pass: same structural fields,
different global index. -/
def sampleFieldA7 : FieldJson :=
  FieldJson.mk 7 "firstName" "First name" "first_name" "fn" "" true "form-control"
    (some "apply") none (some "https://example.com/apply") (some "post") 0 0 "INPUT" []
    ["Your details"] ["First name"] "#fn" "k_a"

/-- Sample page element behind `sampleFieldA`. -/
def samplePageEl0 : PageElement := PageElement.mk 0 "INPUT" "text" "first_name" "fn" []

/-- Sample page element behind `sampleFieldB`. -/
def samplePageEl1 : PageElement := PageElement.mk 1 "INPUT" "text" "last_name" "ln" []

/-- Sample collected elements aligned with `[sampleFieldA, sampleFieldB]`. -/
def sampleElements : List CollectedField :=
  [CollectedField.mk samplePageEl0 "firstName", CollectedField.mk samplePageEl1 "lastName"]

/-- The sample collection pass. -/
def sampleFieldsJson : List FieldJson := [sampleFieldA, sampleFieldB]

/-- A suggestion whose `key` resolves to field 0 while its `index` points at
field 1. -/
def sampleItemKeyVsIndex : SuggestionItem :=
  SuggestionItem.mk (some "k_a") none none none none none none (some 1) (some "Merry")
    none none

/-- One batch outcome delivering the same suggestion twice. -/
def sampleOutcomes : List (Except PromptErr (List SuggestionItem)) :=
  [Except.ok [sampleItemKeyVsIndex, sampleItemKeyVsIndex]]

/-- The run state after `sampleOutcomes`: the duplicate was discarded. -/
def sampleAccState : RunState :=
  RunState.mk [0] ["k_a"]
    [IdentifiedField.mk samplePageEl0 "Merry" (Rat.divInt 4 5) "" true]

/-- A `fieldsWithOptions` record for `sampleFieldA`. -/
def sampleFWO : FieldWithOptions := FieldWithOptions.mk sampleFieldA none false

set_option maxRecDepth 100000

/-! ### Helper lemmas -/

theorem jsMax_zero_nonneg (x : Rat) : 0 ≤ jsMax 0 x := by
  unfold jsMax
  split
  · assumption
  · exact le_refl 0

theorem jsMax_zero_le_one {x : Rat} (hx : x ≤ 1) : jsMax 0 x ≤ 1 := by
  unfold jsMax
  split
  · exact hx
  · norm_num

theorem jsMin_one_le (x : Rat) : jsMin 1 x ≤ 1 := by
  unfold jsMin
  split
  · exact le_refl 1
  · exact le_of_not_le (by assumption)

theorem coerceConfidence_bounds (c : Option Rat) :
    0 ≤ coerceConfidence c ∧ coerceConfidence c ≤ 1 := by
  unfold coerceConfidence
  exact ⟨jsMax_zero_nonneg _, jsMax_zero_le_one (jsMin_one_le _)⟩

theorem eid_getElem?_inj {elements : List CollectedField}
    (hn : (elements.map (fun c => c.element.eid)).Nodup) {i j : Nat} {a b : CollectedField}
    (hi : elements[i]? = some a) (hj : elements[j]? = some b)
    (heq : a.element.eid = b.element.eid) : i = j := by
  have hi' : (elements.map (fun c => c.element.eid))[i]? = some a.element.eid := by
    rw [List.getElem?_map, hi]; rfl
  have hj' : (elements.map (fun c => c.element.eid))[j]? = some b.element.eid := by
    rw [List.getElem?_map, hj]; rfl
  have hlen : i < (elements.map (fun c => c.element.eid)).length :=
    (List.getElem?_eq_some.mp hi').1
  exact List.getElem?_inj hlen hn (by rw [hi', hj', heq])

theorem hasIdxB_false_eid {elements : List CollectedField} {st : RunState} {i : Nat}
    {c : CollectedField} (hget : elements[i]? = some c)
    (h : hasIdxB elements st i = false) :
    ∀ r ∈ st.identifiedFields, r.element.eid ≠ c.element.eid := by
  intro r hr hre
  unfold hasIdxB at h
  rw [hget] at h
  rw [List.any_eq_false] at h
  exact h r hr (by simp [elemRefEq, hre])

theorem processItem_shape (elements : List CollectedField) (fieldsJson : List FieldJson)
    (st : RunState) (item : SuggestionItem) :
    processItem elements fieldsJson st item = st ∨
    ∃ idx c fv, idx ∉ st.usedIndices ∧ elements[idx]? = some c ∧
      processItem elements fieldsJson st item =
        RunState.mk (idx :: st.usedIndices) (pushKeys item st.usedKeys)
          (st.identifiedFields ++
            [IdentifiedField.mk c.element (jsTrim fv) (coerceConfidence item.confidence)
              (item.reason.getD "") true]) := by
  simp only [processItem]
  split
  · exact Or.inl rfl
  · split
    · exact Or.inl rfl
    · split
      · exact Or.inl rfl
      · split
        · exact Or.inl rfl
        · split
          · exact Or.inl rfl
          · split
            · exact Or.inl rfl
            · refine Or.inr ⟨_, _, _, ?_, ?_, rfl⟩
              · assumption
              · assumption

theorem processItem_inv {elements : List CollectedField} {fieldsJson : List FieldJson}
    {st : RunState} {item : SuggestionItem}
    (hn : (elements.map (fun c => c.element.eid)).Nodup) (hinv : stInv elements st) :
    stInv elements (processItem elements fieldsJson st item) := by
  rcases processItem_shape elements fieldsJson st item with h | ⟨idx, c, fv, hidx, hget, h⟩
  · rw [h]; exact hinv
  · rw [h]
    constructor
    · simp only [List.map_append, List.map_cons, List.map_nil]
      rw [List.nodup_append]
      refine ⟨hinv.1, List.nodup_singleton _, ?_⟩
      intro a ha hb
      rw [List.mem_singleton] at hb
      subst hb
      rcases List.mem_map.mp ha with ⟨r, hr, hre⟩
      rcases hinv.2 r hr with ⟨j, cj, hjmem, hjget, hje⟩
      have hjc : j = idx := eid_getElem?_inj hn hjget hget (by rw [← hje, hre])
      exact hidx (hjc ▸ hjmem)
    · intro r hr
      rcases List.mem_append.mp hr with hold | hnew
      · rcases hinv.2 r hold with ⟨j, cj, hjmem, hjget, hje⟩
        exact ⟨j, cj, List.mem_cons_of_mem _ hjmem, hjget, hje⟩
      · rw [List.mem_singleton] at hnew
        subst hnew
        exact ⟨idx, c, List.mem_cons_self _ _, hget, rfl⟩

theorem processBatch_inv {elements : List CollectedField} {fieldsJson : List FieldJson}
    (hn : (elements.map (fun c => c.element.eid)).Nodup) :
    ∀ (items : List SuggestionItem) (st : RunState), stInv elements st →
      stInv elements (processBatch elements fieldsJson st items) := by
  intro items
  induction items with
  | nil => exact fun st h => h
  | cons it rest ih => exact fun st h => ih _ (processItem_inv hn h)

theorem runBatches_inv {elements : List CollectedField} {fieldsJson : List FieldJson}
    (hn : (elements.map (fun c => c.element.eid)).Nodup) :
    ∀ (outs : List (Except PromptErr (List SuggestionItem))) (st st' : RunState),
      runBatches elements fieldsJson st outs = Except.ok st' →
      stInv elements st → stInv elements st' := by
  intro outs
  induction outs with
  | nil =>
    intro st st' h hi
    simp only [runBatches] at h
    cases h
    exact hi
  | cons o rest ih =>
    intro st st' h hi
    match o with
    | Except.error PromptErr.cancelled => simp only [runBatches] at h; cases h
    | Except.error PromptErr.failure =>
      simp only [runBatches] at h
      exact ih _ _ h hi
    | Except.ok items =>
      simp only [runBatches] at h
      exact ih _ _ h (processBatch_inv hn _ _ hi)

theorem tryPushDefault_shape (elements : List CollectedField) (st : RunState)
    (idx? : Option Nat) (mk : CollectedField → Option (String × Rat × String)) :
    tryPushDefault elements st idx? mk = st ∨
    ∃ idx c v conf reason, hasIdxB elements st idx = false ∧ elements[idx]? = some c ∧
      mk c = some (v, conf, reason) ∧
      tryPushDefault elements st idx? mk =
        RunState.mk (idx :: st.usedIndices) st.usedKeys
          (st.identifiedFields ++ [IdentifiedField.mk c.element v conf reason true]) := by
  simp only [tryPushDefault]
  split
  · exact Or.inl rfl
  · split
    · exact Or.inl rfl
    · split
      · exact Or.inl rfl
      · split
        · exact Or.inl rfl
        · refine Or.inr ⟨_, _, _, _, _, ?_, ?_, ?_, rfl⟩
          · simp only [Bool.not_eq_true] at *; assumption
          · assumption
          · assumption

theorem tryPushDefault_inv {elements : List CollectedField} {st : RunState}
    {idx? : Option Nat} {mk : CollectedField → Option (String × Rat × String)}
    (hinv : stInv elements st) : stInv elements (tryPushDefault elements st idx? mk) := by
  rcases tryPushDefault_shape elements st idx? mk with h | ⟨idx, c, v, conf, reason, hfalse, hget, hmk, h⟩
  · rw [h]; exact hinv
  · rw [h]
    constructor
    · simp only [List.map_append, List.map_cons, List.map_nil]
      rw [List.nodup_append]
      refine ⟨hinv.1, List.nodup_singleton _, ?_⟩
      intro a ha hb
      rw [List.mem_singleton] at hb
      subst hb
      rcases List.mem_map.mp ha with ⟨r, hr, hre⟩
      exact hasIdxB_false_eid hget hfalse r hr hre
    · intro r hr
      rcases List.mem_append.mp hr with hold | hnew
      · rcases hinv.2 r hold with ⟨j, cj, hjmem, hjget, hje⟩
        exact ⟨j, cj, List.mem_cons_of_mem _ hjmem, hjget, hje⟩
      · rw [List.mem_singleton] at hnew
        subst hnew
        exact ⟨idx, c, List.mem_cons_self _ _, hget, rfl⟩

theorem addMissingDefaults_inv {elements : List CollectedField} {fieldsJson : List FieldJson}
    {st : RunState} (hinv : stInv elements st) :
    stInv elements (addMissingDefaults elements fieldsJson st) := by
  unfold addMissingDefaults
  exact tryPushDefault_inv (tryPushDefault_inv (tryPushDefault_inv (tryPushDefault_inv hinv)))

theorem processItem_conf {elements : List CollectedField} {fieldsJson : List FieldJson}
    {st : RunState} {item : SuggestionItem}
    (h : ∀ r ∈ st.identifiedFields, confOk r) :
    ∀ r ∈ (processItem elements fieldsJson st item).identifiedFields, confOk r := by
  rcases processItem_shape elements fieldsJson st item with heq | ⟨idx, c, fv, _, _, heq⟩
  · rw [heq]; exact h
  · rw [heq]
    intro r hr
    rcases List.mem_append.mp hr with h1 | h2
    · exact h r h1
    · rw [List.mem_singleton] at h2
      subst h2
      exact ⟨rfl, (coerceConfidence_bounds _).1, (coerceConfidence_bounds _).2⟩

theorem processBatch_conf {elements : List CollectedField} {fieldsJson : List FieldJson} :
    ∀ (items : List SuggestionItem) (st : RunState),
      (∀ r ∈ st.identifiedFields, confOk r) →
      ∀ r ∈ (processBatch elements fieldsJson st items).identifiedFields, confOk r := by
  intro items
  induction items with
  | nil => exact fun st h => h
  | cons it rest ih => exact fun st h => ih _ (processItem_conf h)

theorem runBatches_conf {elements : List CollectedField} {fieldsJson : List FieldJson} :
    ∀ (outs : List (Except PromptErr (List SuggestionItem))) (st st' : RunState),
      runBatches elements fieldsJson st outs = Except.ok st' →
      (∀ r ∈ st.identifiedFields, confOk r) →
      ∀ r ∈ st'.identifiedFields, confOk r := by
  intro outs
  induction outs with
  | nil =>
    intro st st' h hi
    simp only [runBatches] at h
    cases h
    exact hi
  | cons o rest ih =>
    intro st st' h hi
    match o with
    | Except.error PromptErr.cancelled => simp only [runBatches] at h; cases h
    | Except.error PromptErr.failure =>
      simp only [runBatches] at h
      exact ih _ _ h hi
    | Except.ok items =>
      simp only [runBatches] at h
      exact ih _ _ h (processBatch_conf _ _ hi)

theorem tryPushDefault_conf {elements : List CollectedField} {st : RunState}
    {idx? : Option Nat} {mk : CollectedField → Option (String × Rat × String)}
    (hmk : ∀ c v conf reason, mk c = some (v, conf, reason) → 0 ≤ conf ∧ conf ≤ 1)
    (h : ∀ r ∈ st.identifiedFields, confOk r) :
    ∀ r ∈ (tryPushDefault elements st idx? mk).identifiedFields, confOk r := by
  rcases tryPushDefault_shape elements st idx? mk with heq | ⟨idx, c, v, conf, reason, _, _, hm, heq⟩
  · rw [heq]; exact h
  · rw [heq]
    intro r hr
    rcases List.mem_append.mp hr with h1 | h2
    · exact h r h1
    · rw [List.mem_singleton] at h2
      subst h2
      exact ⟨rfl, (hmk c v conf reason hm).1, (hmk c v conf reason hm).2⟩

theorem addMissingDefaults_conf {elements : List CollectedField} {fieldsJson : List FieldJson}
    {st : RunState} (h : ∀ r ∈ st.identifiedFields, confOk r) :
    ∀ r ∈ (addMissingDefaults elements fieldsJson st).identifiedFields, confOk r := by
  unfold addMissingDefaults
  apply tryPushDefault_conf
  · intro c v conf reason hm
    revert hm
    cases preferredPositionOption c.element.options with
    | none => intro hm; cases hm
    | some o =>
      intro hm
      simp only [Option.some.injEq, Prod.mk.injEq] at hm
      rw [← hm.2.1]
      exact ⟨by decide, by decide⟩
  apply tryPushDefault_conf
  · intro c v conf reason hm
    revert hm
    cases preferredYesOption c.element.options with
    | none => intro hm; cases hm
    | some o =>
      intro hm
      simp only [Option.some.injEq, Prod.mk.injEq] at hm
      rw [← hm.2.1]
      exact ⟨by decide, by decide⟩
  apply tryPushDefault_conf
  · intro c v conf reason hm
    simp only [Option.some.injEq, Prod.mk.injEq] at hm
    rw [← hm.2.1]
    exact ⟨by decide, by decide⟩
  apply tryPushDefault_conf
  · intro c v conf reason hm
    revert hm
    cases preferredSourceOption c.element.options with
    | none => intro hm; cases hm
    | some o =>
      intro hm
      simp only [Option.some.injEq, Prod.mk.injEq] at hm
      rw [← hm.2.1]
      exact ⟨by decide, by decide⟩
  exact h

theorem sliceChunksAux_flatten :
    ∀ (fuel : Nat) (l : List FieldWithOptions), l.length ≤ fuel →
      (sliceChunksAux fuel l).flatten = l := by
  intro fuel
  induction fuel with
  | zero =>
    intro l hl
    cases l with
    | nil => rfl
    | cons x xs => simp at hl
  | succ n ih =>
    intro l hl
    cases l with
    | nil => rfl
    | cons x xs =>
      show ((x :: xs).take 24 :: sliceChunksAux n ((x :: xs).drop 24)).flatten = x :: xs
      rw [List.flatten_cons, ih _ (by simp [List.length_drop] at hl ⊢; omega)]
      exact List.take_append_drop 24 (x :: xs)

theorem sliceChunksAux_mem_le :
    ∀ (fuel : Nat) (l : List FieldWithOptions) (c : List FieldWithOptions),
      c ∈ sliceChunksAux fuel l → c.length ≤ 24 := by
  intro fuel
  induction fuel with
  | zero => intro l c hc; simp [sliceChunksAux] at hc
  | succ n ih =>
    intro l c hc
    cases l with
    | nil => simp [sliceChunksAux] at hc
    | cons x xs =>
      rcases List.mem_cons.mp hc with h | h
      · subst h; simp [List.length_take]
      · exact ih _ _ h

theorem runBatches_failure_skip {elements : List CollectedField} {fieldsJson : List FieldJson} :
    ∀ (pre : List (Except PromptErr (List SuggestionItem))) (st : RunState)
      (post : List (Except PromptErr (List SuggestionItem))),
      runBatches elements fieldsJson st (pre ++ Except.error PromptErr.failure :: post) =
        runBatches elements fieldsJson st (pre ++ Except.ok [] :: post) := by
  intro pre
  induction pre with
  | nil => intro st post; rfl
  | cons o rest ih =>
    intro st post
    match o with
    | Except.error PromptErr.cancelled => rfl
    | Except.error PromptErr.failure =>
      simp only [List.cons_append, runBatches]
      exact ih _ _
    | Except.ok items =>
      simp only [List.cons_append, runBatches]
      exact ih _ _

/-! ### Claim theorems -/

/-- Claim C1: `resolveFieldIndex` resolves a suggestion to at most one field
index by trying, in this exact order and stopping at the first match:
stableKey, cssPath, normalised id, normalised name, normalised label,
`(formIndex, orderWithinForm)`, and the raw numeric index if in range; a
suggestion matching none is unresolved (`-1`).  In particular a suggestion
whose key resolves to field `a` while its in-range index points at a
different field `b` resolves to `a`, not `b`. -/
theorem c1_resolveFieldIndex_fallback_chain (item : SuggestionItem) (fj : List FieldJson) :
    (∀ i, keyMatch item fj = some i → resolveFieldIndex item fj = (i : Int)) ∧
    (keyMatch item fj = none → ∀ i, cssMatch item fj = some i →
      resolveFieldIndex item fj = (i : Int)) ∧
    (keyMatch item fj = none → cssMatch item fj = none → ∀ i, idMatch item fj = some i →
      resolveFieldIndex item fj = (i : Int)) ∧
    (keyMatch item fj = none → cssMatch item fj = none → idMatch item fj = none →
      ∀ i, nameMatch item fj = some i → resolveFieldIndex item fj = (i : Int)) ∧
    (keyMatch item fj = none → cssMatch item fj = none → idMatch item fj = none →
      nameMatch item fj = none → ∀ i, labelMatch item fj = some i →
      resolveFieldIndex item fj = (i : Int)) ∧
    (keyMatch item fj = none → cssMatch item fj = none → idMatch item fj = none →
      nameMatch item fj = none → labelMatch item fj = none →
      ∀ i, formPosMatch item fj = some i → resolveFieldIndex item fj = (i : Int)) ∧
    (keyMatch item fj = none → cssMatch item fj = none → idMatch item fj = none →
      nameMatch item fj = none → labelMatch item fj = none → formPosMatch item fj = none →
      ∀ i, indexMatch item fj = some i → resolveFieldIndex item fj = (i : Int)) ∧
    (keyMatch item fj = none → cssMatch item fj = none → idMatch item fj = none →
      nameMatch item fj = none → labelMatch item fj = none → formPosMatch item fj = none →
      indexMatch item fj = none → resolveFieldIndex item fj = -1) ∧
    (∀ a b, keyMatch item fj = some a → indexMatch item fj = some b → b ≠ a →
      resolveFieldIndex item fj = (a : Int) ∧ resolveFieldIndex item fj ≠ (b : Int)) := by
  refine ⟨?_, ?_, ?_, ?_, ?_, ?_, ?_, ?_, ?_⟩
  · intro i h; unfold resolveFieldIndex; rw [h]
  · intro h1 i h; unfold resolveFieldIndex; rw [h1, h]
  · intro h1 h2 i h; unfold resolveFieldIndex; rw [h1, h2, h]
  · intro h1 h2 h3 i h; unfold resolveFieldIndex; rw [h1, h2, h3, h]
  · intro h1 h2 h3 h4 i h; unfold resolveFieldIndex; rw [h1, h2, h3, h4, h]
  · intro h1 h2 h3 h4 h5 i h; unfold resolveFieldIndex; rw [h1, h2, h3, h4, h5, h]
  · intro h1 h2 h3 h4 h5 h6 i h; unfold resolveFieldIndex; rw [h1, h2, h3, h4, h5, h6, h]
  · intro h1 h2 h3 h4 h5 h6 h7; unfold resolveFieldIndex; rw [h1, h2, h3, h4, h5, h6, h7]
  · intro a b ha hb hne
    refine ⟨by unfold resolveFieldIndex; rw [ha], ?_⟩
    have : resolveFieldIndex item fj = (a : Int) := by unfold resolveFieldIndex; rw [ha]
    rw [this]
    intro hc
    exact hne (by exact_mod_cast hc.symm)

/-- Witness for C1: a suggestion carrying the stable key of field 0 and the
raw index 1 resolves to field 0 and not to field 1. -/
theorem c1_witness :
    resolveFieldIndex sampleItemKeyVsIndex sampleFieldsJson = 0 ∧
    resolveFieldIndex sampleItemKeyVsIndex sampleFieldsJson ≠ 1 := by
  have h := (c1_resolveFieldIndex_fallback_chain sampleItemKeyVsIndex sampleFieldsJson).2.2.2.2.2.2.2.2
  have h2 := h 0 1 (by decide) (by decide) (by decide)
  exact ⟨h2.1, h2.2⟩

/-- Claim C2 (code bug): `sanitizeDateValue` maps `"2017"` to `"2017-01-01"`,
`"2017-Present"` to `"2017-01-01"`, and `"Present"`/`"current"`/`"now"`/
`"today"` (case-insensitively) to today's date; but for the invalid date
`"13/40/2020"` it does NOT fail: the slash-date branch has no range
validation and yields `"2020-13-40"`, which `fillField` then writes into the
date control. -/
theorem c2_sanitizeDateValue_eval (genericParse : String → Option String) (today : String) :
    sanitizeDateValue genericParse today "2017" = some "2017-01-01" ∧
    sanitizeDateValue genericParse today "2017-Present" = some "2017-01-01" ∧
    sanitizeDateValue genericParse today "Present" = some today ∧
    sanitizeDateValue genericParse today "present" = some today ∧
    sanitizeDateValue genericParse today "Current" = some today ∧
    sanitizeDateValue genericParse today "now" = some today ∧
    sanitizeDateValue genericParse today "Today" = some today ∧
    sanitizeDateValue genericParse today "13/40/2020" = some "2020-13-40" :=
  ⟨rfl, rfl, rfl, rfl, rfl, rfl, rfl, rfl⟩

/-- Claim C3: on the truncated model reply
`[{"key":"k_1","value":"A"},{"key":"k_2","valu` the parser returns exactly
the one complete object and discards the incomplete trailing one. -/
theorem c3_parser_truncation_tolerance :
    parseArrayFromText (JsVal.str
        "[\x7b\"key\":\"k_1\",\"value\":\"A\"\x7d,\x7b\"key\":\"k_2\",\"valu") =
      Except.ok [Json.obj [("key", Json.str "k_1"), ("value", Json.str "A")]] := rfl

/-- Claim C4: within one run no two accepted suggestions reference the same
field: after all batches and the default backfill, the element identities of
the identified fields are pairwise distinct (elements are collected through
a deduplicating `Set`, so their identities are pairwise distinct). -/
theorem c4_at_most_one_per_field (elements : List CollectedField) (fieldsJson : List FieldJson)
    (outcomes : List (Except PromptErr (List SuggestionItem))) (st : RunState)
    (hn : (elements.map (fun c => c.element.eid)).Nodup)
    (hrun : runBatches elements fieldsJson initRunState outcomes = Except.ok st) :
    (((addMissingDefaults elements fieldsJson st).identifiedFields).map
      (fun r => r.element.eid)).Nodup := by
  have h0 : stInv elements initRunState := by
    refine ⟨List.nodup_nil, ?_⟩
    intro r hr
    simp [initRunState] at hr
  exact (addMissingDefaults_inv (runBatches_inv hn outcomes initRunState st hrun h0)).1

/-- Witness for C4: a batch delivering the same suggestion twice yields a
run state whose identified fields are free of duplicates. -/
theorem c4_witness :
    (((addMissingDefaults sampleElements sampleFieldsJson sampleAccState).identifiedFields).map
      (fun r => r.element.eid)).Nodup :=
  c4_at_most_one_per_field sampleElements sampleFieldsJson sampleOutcomes sampleAccState
    (by decide) rfl

/-- Claim C5: `parseArrayFromText` always returns a (possibly empty) list and
never lets an exception escape: every `JSON.parse` it performs sits inside a
`try/catch`, so the explicit exception channel is never hit. -/
theorem c5_parseArrayFromText_total (input : JsVal) :
    ∃ l, parseArrayFromText input = Except.ok l := by
  have hscan : ∀ cs : List Char, ∃ l, parseScanPhase cs = Except.ok l := by
    intro cs
    unfold parseScanPhase
    split
    · exact ⟨_, rfl⟩
    all_goals split
    all_goals exact ⟨_, rfl⟩
  cases input with
  | other => exact ⟨[], rfl⟩
  | str s =>
    simp only [parseArrayFromText]
    split
    · exact ⟨[], rfl⟩
    · exact hscan _
  | objVal j =>
    simp only [parseArrayFromText]
    split
    · exact ⟨[], rfl⟩
    · exact hscan _

/-- Claim C6: `computeStableKey` is a function of only the normalised
structural fields of the descriptor - type, tag, id, name, label,
placeholder, form identity, form position, parent labels, nearby text and
css path - so two descriptors agreeing on those (even with different global
indexes, as across separate collection passes) receive the same key. -/
theorem c6_stableKey_structural (a b : FieldJson)
    (ht : normStr a.type = normStr b.type)
    (htg : normStr a.tagName = normStr b.tagName)
    (hid : normStr a.id = normStr b.id)
    (hnm : normStr a.name = normStr b.name)
    (hlb : normStr a.label = normStr b.label)
    (hph : normStr a.placeholder = normStr b.placeholder)
    (hfid : normOpt a.formId = normOpt b.formId)
    (hfn : normOpt a.formName = normOpt b.formName)
    (hfa : normOpt a.formAction = normOpt b.formAction)
    (hfm : normOpt a.formMethod = normOpt b.formMethod)
    (hfi : a.formIndex = b.formIndex)
    (hof : a.orderWithinForm = b.orderWithinForm)
    (hpl : a.parentLabels.map normStr = b.parentLabels.map normStr)
    (hnt : a.nearbyText.map normStr = b.nearbyText.map normStr)
    (hcp : normStr a.cssPath = normStr b.cssPath) :
    computeStableKey a = computeStableKey b := by
  unfold computeStableKey stableKeyPayload
  rw [ht, htg, hid, hnm, hlb, hph, hfid, hfn, hfa, hfm, hfi, hof, hpl, hnt, hcp]

/-- Witness for C6: the same field re-collected with global index 7 instead
of 0 keeps its stable key. -/
theorem c6_witness : computeStableKey sampleFieldA = computeStableKey sampleFieldA7 :=
  c6_stableKey_structural sampleFieldA sampleFieldA7 rfl rfl rfl rfl rfl rfl rfl rfl rfl rfl
    rfl rfl rfl rfl rfl

/-- Claim C7: fields are partitioned into consecutive batches of at most 24
descriptors; no batch sent to the model contains a file field (nor a
file-typed descriptor); a non-cancellation failure of one batch behaves
exactly like an empty batch, so later batches still run; a cancellation ends
the run. -/
theorem c7_batching (elements : List CollectedField) (fieldsJson : List FieldJson) :
    (∀ l : List FieldWithOptions, (sliceChunks l).flatten = l) ∧
    (∀ (l c : List FieldWithOptions), c ∈ sliceChunks l → c.length ≤ 24) ∧
    (∀ b ∈ sentBatches elements fieldsJson, ∀ f ∈ b, f.isFile = false ∧ f.fj.type ≠ "file") ∧
    (∀ (st : RunState) (pre post : List (Except PromptErr (List SuggestionItem))),
      runBatches elements fieldsJson st (pre ++ Except.error PromptErr.failure :: post) =
        runBatches elements fieldsJson st (pre ++ Except.ok [] :: post)) ∧
    (∀ (st : RunState) (rest : List (Except PromptErr (List SuggestionItem))),
      runBatches elements fieldsJson st (Except.error PromptErr.cancelled :: rest) =
        Except.error "Cancelled by user") := by
  refine ⟨?_, ?_, ?_, ?_, ?_⟩
  · intro l; exact sliceChunksAux_flatten l.length l (le_refl _)
  · intro l c hc; exact sliceChunksAux_mem_le l.length l c hc
  · intro b hb f hf
    rcases List.mem_map.mp hb with ⟨chunk, hchunk, hb⟩
    subst hb
    have hmem := List.mem_filter.mp hf
    have hfile : f.isFile = false := by
      have := hmem.2
      simp only [Bool.not_eq_true'] at this
      exact this
    refine ⟨hfile, ?_⟩
    have hfl : f ∈ buildFieldsWithOptions elements fieldsJson := by
      rw [← sliceChunksAux_flatten (buildFieldsWithOptions elements fieldsJson).length _
        (le_refl _)]
      exact List.mem_flatten.mpr ⟨chunk, hchunk, hmem.1⟩
    rcases List.mem_map.mp hfl with ⟨p, _, hp⟩
    have hfile' : computeIsFile ((elements[p.1]?).map (fun c => c.element)) p.2.type = false := by
      have h2 := congrArg FieldWithOptions.isFile hp
      simp only at h2
      rw [hfile] at h2
      exact h2
    have hfj : p.2 = f.fj := congrArg FieldWithOptions.fj hp
    unfold computeIsFile at hfile'
    rcases Bool.or_eq_false_iff.mp hfile' with ⟨-, h2⟩
    intro hcontra
    rw [← hfj] at hcontra
    rw [hcontra] at h2
    simp at h2
  · intro st pre post; exact runBatches_failure_skip pre st post
  · intro st rest; rfl

/-- Witness for C7: in the sample collection the sent batch contains the
sample field, which is neither a file input nor file-typed. -/
theorem c7_witness : sampleFWO.isFile = false ∧ sampleFWO.fj.type ≠ "file" :=
  (c7_batching sampleElements sampleFieldsJson).2.2.1
    [FieldWithOptions.mk sampleFieldA none false, FieldWithOptions.mk sampleFieldB none false]
    (by decide) sampleFWO (by decide)

/-- Claim C8: if after all batches and the default backfill no suggestion was
accepted, the run ends with the error `AI returned no valid data`, surfaced
to the user as the alert `AI processing failed: AI returned no valid data`;
if at least one suggestion was accepted, no such terminal error is raised
and no alert is shown. -/
theorem c8_terminal_failure (elements : List CollectedField) (fieldsJson : List FieldJson)
    (outcomes : List (Except PromptErr (List SuggestionItem))) (st : RunState)
    (hrun : runBatches elements fieldsJson initRunState outcomes = Except.ok st) :
    ((addMissingDefaults elements fieldsJson st).identifiedFields = [] →
      analyzeWithFullHtml elements fieldsJson outcomes =
        Except.error "AI returned no valid data" ∧
      processFormFillingAlert (analyzeWithFullHtml elements fieldsJson outcomes) =
        some "AI processing failed: AI returned no valid data") ∧
    ((addMissingDefaults elements fieldsJson st).identifiedFields ≠ [] →
      analyzeWithFullHtml elements fieldsJson outcomes =
        Except.ok (addMissingDefaults elements fieldsJson st).identifiedFields ∧
      processFormFillingAlert (analyzeWithFullHtml elements fieldsJson outcomes) = none) := by
  constructor
  · intro h
    have hres : analyzeWithFullHtml elements fieldsJson outcomes =
        Except.error "AI returned no valid data" := by
      simp only [analyzeWithFullHtml, hrun]
      rw [h]
      rfl
    refine ⟨hres, ?_⟩
    rw [hres]
    rfl
  · intro h
    have hres : analyzeWithFullHtml elements fieldsJson outcomes =
        Except.ok (addMissingDefaults elements fieldsJson st).identifiedFields := by
      simp only [analyzeWithFullHtml, hrun]
      cases hl : (addMissingDefaults elements fieldsJson st).identifiedFields with
      | nil => exact absurd hl h
      | cons a as => rfl
    refine ⟨hres, ?_⟩
    rw [hres]
    rfl

/-- Witness for C8: with no fields and no batches, nothing is accepted and
the user sees the terminal failure alert. -/
theorem c8_witness :
    processFormFillingAlert (analyzeWithFullHtml [] [] []) =
      some "AI processing failed: AI returned no valid data" :=
  ((c8_terminal_failure [] [] [] initRunState rfl).1 rfl).2

/-- Claim C9: on a fenced JSON array preceded by prose the parser returns
exactly the contained object. -/
theorem c9_parser_fence_tolerance :
    parseArrayFromText (JsVal.str
        "Sure! ```json\n[\x7b\"key\":\"k_1\",\"value\":\"A\"\x7d]\n```") =
      Except.ok [Json.obj [("key", Json.str "k_1"), ("value", Json.str "A")]] := rfl

/-- Claim C10: every identified field is stored with `included = true` and a
confidence in `[0, 1]`; an accepted suggestion's stored confidence is
`Math.max(0, Math.min(1, Number(confidence) || 0.8))`, and an absent,
non-numeric or zero model confidence is promoted to `0.8 = 4/5`. -/
theorem c10_confidence_invariant :
    (∀ (elements : List CollectedField) (fieldsJson : List FieldJson)
        (outcomes : List (Except PromptErr (List SuggestionItem)))
        (res : List IdentifiedField),
      analyzeWithFullHtml elements fieldsJson outcomes = Except.ok res →
      ∀ r ∈ res, r.included = true ∧ 0 ≤ r.confidence ∧ r.confidence ≤ 1) ∧
    (∀ (elements : List CollectedField) (fieldsJson : List FieldJson) (st : RunState)
        (item : SuggestionItem),
      (processItem elements fieldsJson st item).identifiedFields = st.identifiedFields ∨
      ∃ rec, (processItem elements fieldsJson st item).identifiedFields =
          st.identifiedFields ++ [rec] ∧ rec.included = true ∧
          rec.confidence = coerceConfidence item.confidence) ∧
    coerceConfidence none = Rat.divInt 4 5 ∧
    coerceConfidence (some 0) = Rat.divInt 4 5 ∧
    Rat.divInt 4 5 = 4 / 5 := by
  refine ⟨?_, ?_, by decide, by decide, ?_⟩
  · intro elements fieldsJson outcomes res hres r hr
    revert hres
    unfold analyzeWithFullHtml
    cases hrb : runBatches elements fieldsJson initRunState outcomes with
    | error e => intro hres; cases hres
    | ok st =>
      intro hres
      have hinit : ∀ x ∈ initRunState.identifiedFields, confOk x := by
        intro x hx
        simp [initRunState] at hx
      have hall : ∀ x ∈ (addMissingDefaults elements fieldsJson st).identifiedFields, confOk x :=
        addMissingDefaults_conf (runBatches_conf outcomes initRunState st hrb hinit)
      have hres' : (if (addMissingDefaults elements fieldsJson st).identifiedFields.isEmpty = true
          then (Except.error "AI returned no valid data" : Except String (List IdentifiedField))
          else Except.ok (addMissingDefaults elements fieldsJson st).identifiedFields) =
          Except.ok res := hres
      by_cases hemp : (addMissingDefaults elements fieldsJson st).identifiedFields.isEmpty = true
      · rw [if_pos hemp] at hres'
        cases hres'
      · rw [if_neg hemp] at hres'
        cases hres'
        exact hall r hr
  · intro elements fieldsJson st item
    rcases processItem_shape elements fieldsJson st item with h | ⟨idx, c, fv, _, _, h⟩
    · exact Or.inl (by rw [h])
    · exact Or.inr ⟨_, by rw [h], rfl, rfl⟩
  · rw [Rat.divInt_eq_div]
    norm_num

/-- Witness for C10: the field accepted in the sample run (whose suggestion
carried no confidence) is stored included with confidence `0.8`, inside the
bounds. -/
theorem c10_witness :
    (IdentifiedField.mk samplePageEl0 "Merry" (Rat.divInt 4 5) "" true).included = true ∧
    0 ≤ (IdentifiedField.mk samplePageEl0 "Merry" (Rat.divInt 4 5) "" true).confidence ∧
    (IdentifiedField.mk samplePageEl0 "Merry" (Rat.divInt 4 5) "" true).confidence ≤ 1 :=
  c10_confidence_invariant.1 sampleElements sampleFieldsJson sampleOutcomes
    [IdentifiedField.mk samplePageEl0 "Merry" (Rat.divInt 4 5) "" true] rfl
    (IdentifiedField.mk samplePageEl0 "Merry" (Rat.divInt 4 5) "" true)
    (List.mem_singleton.mpr rfl)

end FormFiller
